import Mathlib

/-!
Shallow embedding of the Debian repository index & fetch pipeline of
`debian-packaging` (file `src/debian-packaging/src/repository/mod.rs`, with the
error enumeration of `src/debian-packaging/src/error.rs`), together with
theorems settling the specification claims about it.

Conventions of the embedding:
* machine integers (`u64`, `usize`) are modelled as `Nat`; no claim here
  depends on wrap-around behaviour;
* fallible Rust functions returning `Result<T, DebianError>` become
  `Except DebianError T`;
* `Vec<T>` becomes `List T`; string maps (control paragraphs, Release fields)
  become association lists queried by first match, which is how the upstream
  paragraph type resolves duplicate field names (first occurrence wins);
* a few leaf types (`ChecksumType`, `Compression`, `ContentDigest`, the
  `ReleaseFile` field accessors and `SinkWriterVerifyBehavior`) live in files
  of this repository that are not part of the sampled sources; those are
  modelled from the specification and are marked `Modelled from the spec:` in
  their doc comments.
-/

namespace DebianRepo

/-- Checksum flavors known to Release files
(`ChecksumType` of `repository/release.rs`). -/
inductive ChecksumType where
  | Md5
  | Sha1
  | Sha256
deriving DecidableEq, Repr

/-- Modelled from the spec: the Release-file field name holding the checksum
table of each flavor; §3 names the tables `MD5Sum`/`SHA1`/`SHA256` and §6 uses
the same names as the `ALGO` component of by-hash paths. -/
def ChecksumType.fieldName : ChecksumType → String
  | .Md5 => "MD5Sum"
  | .Sha1 => "SHA1"
  | .Sha256 => "SHA256"

/-- Modelled from the spec: `ChecksumType::preferred_order()`, "walk checksum
fields in `ChecksumType::preferred_order()` (SHA256, SHA1, MD5)" (§4.3), with
the total order SHA256 > SHA1 > MD5 of §3. -/
def ChecksumType.preferredOrder : List ChecksumType :=
  [ChecksumType.Sha256, ChecksumType.Sha1, ChecksumType.Md5]

/-- Compression formats of index files (`Compression` of `io.rs`). -/
inductive Compression where
  | None
  | Xz
  | Gzip
  | Bzip2
  | Lzma
  | Zstd
deriving DecidableEq, Repr

/-- Modelled from the spec: `Compression::default_preferred_order()`.
§3: "A default preferred order is defined …; the source uses
Xz > Bzip2 > Gzip > Lzma > None, Zstd last", i.e. Zstd is least preferred and
is not offered by the fallback walk (claims about the not-found fallback
presuppose a compression outside this list, which only Zstd can be). -/
def Compression.defaultPreferredOrder : List Compression :=
  [Compression.Xz, Compression.Bzip2, Compression.Gzip, Compression.Lzma,
   Compression.None]

/-- Value of a hexadecimal digit character, if any. -/
def hexVal (c : Char) : Option Nat :=
  if 48 ≤ c.toNat ∧ c.toNat ≤ 57 then some (c.toNat - 48)
  else if 97 ≤ c.toNat ∧ c.toNat ≤ 102 then some (c.toNat - 87)
  else if 65 ≤ c.toNat ∧ c.toNat ≤ 70 then some (c.toNat - 55)
  else none

/-- Decode a hex string (as a list of characters) into bytes; fails on an odd
number of digits or a non-hex digit, as the `hex` crate does. -/
def hexBytes : List Char → Option (List Nat)
  | [] => some []
  | [_] => none
  | a :: b :: rest =>
    match hexVal a, hexVal b, hexBytes rest with
    | some ha, some hb, some tail => some ((ha * 16 + hb) :: tail)
    | _, _, _ => none

/-- Lowercase hex digit for a value below 16. -/
def hexDigitChar (n : Nat) : Char :=
  if n < 10 then Char.ofNat (48 + n) else Char.ofNat (87 + n)

/-- Lowercase hex encoding of a byte list. -/
def hexEncode (bs : List Nat) : String :=
  String.mk (bs.flatMap (fun b => [hexDigitChar (b / 16 % 16), hexDigitChar (b % 16)]))

/-- Modelled from the spec: `ContentDigest` (§3), a "tagged pair of
(algorithm ∈ \x7bMD5, SHA1, SHA256\x7d, raw bytes)". -/
inductive ContentDigest where
  | md5 (bytes : List Nat)
  | sha1 (bytes : List Nat)
  | sha256 (bytes : List Nat)
deriving DecidableEq, Repr

/-- The algorithm tag of a digest. -/
def ContentDigest.algorithm : ContentDigest → ChecksumType
  | .md5 _ => .Md5
  | .sha1 _ => .Sha1
  | .sha256 _ => .Sha256

/-- Raw bytes of a digest. -/
def ContentDigest.bytes : ContentDigest → List Nat
  | .md5 bs => bs
  | .sha1 bs => bs
  | .sha256 bs => bs

/-- Modelled from the spec: the `ALGO` name used in by-hash paths for this
digest (§6: `ALGO ∈ \x7bMD5Sum, SHA1, SHA256\x7d`). -/
def ContentDigest.releaseFieldName (d : ContentDigest) : String :=
  d.algorithm.fieldName

/-- Modelled from the spec: lowercase hex rendering of the digest bytes
(§6: "lowercase-hex-digest"). -/
def ContentDigest.digestHex (d : ContentDigest) : String :=
  hexEncode d.bytes

/-- `std::io::ErrorKind`, restricted to the kinds the claims mention. -/
inductive IoErrorKind where
  | NotFound
  | PermissionDenied
  | ConnectionRefused
  | TimedOut
  | OtherKind
deriving DecidableEq, Repr

/-- `SinkWriterVerifyBehavior` of `repository/sink_writer.rs`.
Modelled from the spec: §4.5 lists the four behaviors encoded in the host of a
`null://` URL. -/
inductive SinkWriterVerifyBehavior where
  | Missing
  | ExistsNoIntegrityCheck
  | ExistsIntegrityVerified
  | ExistsIntegrityMismatch
deriving DecidableEq, Repr

/-- `DebianError` of `src/debian-packaging/src/error.rs`, restricted to the
variants reachable from the embedded operations. Payloads that carry foreign
error values (`hex::FromHexError`, `std::num::ParseIntError`) keep only the
string context the claims can observe. -/
inductive DebianError where
  | Url
  | ContentDigestBadHex (hex : String)
  | ControlParseError (msg : String)
  | ControlRequiredFieldMissing (field : String)
  | ControlFieldIntParse (field : String)
  | RepositoryReaderUnrecognizedUrl (url : String)
  | RepositoryWriterUnrecognizedUrl (url : String)
  | RepositoryReadReleaseNoKnownChecksum
  | RepositoryReadContentsIndicesEntryNotFound
  | RepositoryReadPackagesIndicesEntryNotFound
  | RepositoryReadSourcesIndicesEntryNotFound
  | RepositoryReadCouldNotDeterminePackageDigest
  | RepositoryIoPath (path : String) (kind : IoErrorKind)
  | ReleaseNoIndicesFiles
  | SinkWriterVerifyBehaviorUnknown (host : String)
deriving DecidableEq, Repr

/-- A parsed `[In]Release` file, reduced to its control paragraph: an
association list of fields. `ReleaseFile::field` resolves a field name to its
value (first occurrence wins). -/
structure ReleaseFile where
  fields : List (String × String)
deriving DecidableEq, Repr

/-- `ReleaseFile::field`: look a field up by name. -/
def ReleaseFile.field (r : ReleaseFile) (name : String) : Option String :=
  (r.fields.find? (fun p => p.1 = name)).map (fun p => p.2)

/-- Modelled from the spec: `ReleaseFile::acquire_by_hash` reads the
`Acquire-By-Hash` field (§3/§6: `Acquire-By-Hash: yes|no` governs index path
rewriting); absent field gives `none`, a present field compares against
"yes". -/
def ReleaseFile.acquireByHash (r : ReleaseFile) : Option Bool :=
  (r.field "Acquire-By-Hash").map (fun v => v = "yes")

/-- `ReleaseReader::retrieve_checksum` (repository/mod.rs lines 279-288): walk
`[Sha256, Sha1, Md5]` and take the first flavor whose checksum field is present
in the Release file, else fail with `RepositoryReadReleaseNoKnownChecksum`. -/
def retrieveChecksum (release : ReleaseFile) : Except DebianError ChecksumType :=
  match ChecksumType.preferredOrder.find?
      (fun variant => (release.field variant.fieldName).isSome) with
  | some c => .ok c
  | none => .error .RepositoryReadReleaseNoKnownChecksum

/-- Claim C1: `retrieve_checksum` walks the flavors in the fixed order SHA256,
SHA1, MD5 and returns the first whose checksum field is present in the Release
file; with no known checksum field it fails with
`RepositoryReadReleaseNoKnownChecksum`; in particular a populated SHA256 table
always wins. -/
theorem retrieveChecksum_first_present (release : ReleaseFile) :
    ((release.field "SHA256").isSome = true →
      retrieveChecksum release = .ok .Sha256) ∧
    ((release.field "SHA256").isSome = false →
      (release.field "SHA1").isSome = true →
      retrieveChecksum release = .ok .Sha1) ∧
    ((release.field "SHA256").isSome = false →
      (release.field "SHA1").isSome = false →
      (release.field "MD5Sum").isSome = true →
      retrieveChecksum release = .ok .Md5) ∧
    ((release.field "SHA256").isSome = false →
      (release.field "SHA1").isSome = false →
      (release.field "MD5Sum").isSome = false →
      retrieveChecksum release = .error .RepositoryReadReleaseNoKnownChecksum) := by
  refine ⟨fun h1 => ?_, fun h1 h2 => ?_, fun h1 h2 h3 => ?_, fun h1 h2 h3 => ?_⟩ <;>
    simp_all [retrieveChecksum, ChecksumType.preferredOrder, List.find?,
      ChecksumType.fieldName]

/-- A Release file used by witnesses: SHA256 and MD5Sum tables populated. -/
def sampleRelease : ReleaseFile :=
  { fields :=
      [("Suite", "stable"),
       ("SHA256", " abc 1 main/binary-amd64/Packages"),
       ("MD5Sum", " abc 1 main/binary-amd64/Packages")] }

/-- Witness for claim C1: on a concrete Release file with a populated SHA256
table, `retrieve_checksum` returns SHA256. -/
theorem retrieveChecksum_first_present_witness :
    retrieveChecksum sampleRelease = .ok .Sha256 :=
  (retrieveChecksum_first_present sampleRelease).1 (by rfl)

/-- A phase during a repository copy operation (`CopyPhase`,
repository/mod.rs lines 804-812). -/
inductive CopyPhase where
  | BinaryPackages
  | InstallerBinaryPackages
  | Sources
  | Installers
  | ReleaseIndices
  | ReleaseFiles
deriving DecidableEq, Repr

/-- Repository publishing event (`PublishEvent`, repository/mod.rs lines
834-884). String payloads are paths, numeric payloads are counts or sizes. -/
inductive PublishEvent where
  | ResolvedPoolArtifacts (count : Nat)
  | PoolArtifactCurrent (path : String)
  | PoolArtifactMissing (path : String)
  | PoolArtifactsToPublish (count : Nat)
  | PoolArtifactCreated (path : String) (size : Nat)
  | IndexFileToWrite (path : String)
  | IndexFileWritten (path : String) (size : Nat)
  | VerifyingDestinationPath (path : String)
  | CopyPhaseBegin (phase : CopyPhase)
  | CopyPhaseEnd (phase : CopyPhase)
  | CopyingPath (source : String) (dest : String)
  | CopyIndicesPathNotFound (path : String)
  | PathCopied (path : String) (size : Nat)
  | PathCopyNoop (path : String)
  | WriteSequenceBeginWithTotalBytes (total : Nat)
  | WriteSequenceProgressBytes (count : Nat)
  | WriteSequenceFinished
deriving DecidableEq, Repr

/-- `PublishEvent::is_progress` (repository/mod.rs lines 949-957): true
exactly on the `WriteSequence*` family. -/
def PublishEvent.isProgress : PublishEvent → Bool
  | .WriteSequenceBeginWithTotalBytes _ => true
  | .WriteSequenceProgressBytes _ => true
  | .WriteSequenceFinished => true
  | _ => false

/-- `PublishEvent::is_loggable` (repository/mod.rs lines 944-946):
the negation of `is_progress`. -/
def PublishEvent.isLoggable (e : PublishEvent) : Bool :=
  !e.isProgress

/-- Claim C8: `is_progress` is true exactly on
`WriteSequenceBeginWithTotalBytes`, `WriteSequenceProgressBytes` and
`WriteSequenceFinished`, and `is_loggable` is the boolean negation of
`is_progress` on every event. -/
theorem publishEvent_isProgress_isLoggable (e : PublishEvent) :
    (e.isLoggable = !e.isProgress) ∧
    (e.isProgress = true ↔
      (∃ n, e = .WriteSequenceBeginWithTotalBytes n) ∨
      (∃ n, e = .WriteSequenceProgressBytes n) ∨
      e = .WriteSequenceFinished) := by
  cases e <;> simp [PublishEvent.isProgress, PublishEvent.isLoggable]

/-- Witness for claim C8, instantiated at two concrete events. -/
theorem publishEvent_isProgress_isLoggable_witness :
    PublishEvent.isLoggable .WriteSequenceFinished =
      !PublishEvent.isProgress .WriteSequenceFinished ∧
    PublishEvent.isLoggable (.PathCopyNoop "pool/a.deb") =
      !PublishEvent.isProgress (.PathCopyNoop "pool/a.deb") :=
  ⟨(publishEvent_isProgress_isLoggable .WriteSequenceFinished).1,
   (publishEvent_isProgress_isLoggable (.PathCopyNoop "pool/a.deb")).1⟩

/-- `RepositoryRootReader::fetch_inrelease_or_release`
(repository/mod.rs lines 202-216). The `InRelease` and `Release` fetch
results are passed in as the outcomes of `fetch_inrelease(inrelease_path)`
and `fetch_release(release_path)`; the returned boolean records whether
`fetch_release` was consulted (the fallback path). -/
def fetchInreleaseOrRelease
    (inrel : Except DebianError ReleaseFile)
    (rel : Except DebianError ReleaseFile) :
    Except DebianError ReleaseFile × Bool :=
  match inrel with
  | .ok release => (.ok release, false)
  | .error (.RepositoryIoPath p e) =>
    if e = .NotFound then (rel, true) else (.error (.RepositoryIoPath p e), false)
  | .error e => (.error e, false)

/-- Claim C4: `fetch_inrelease_or_release` returns the parsed `InRelease` when
the `InRelease` fetch succeeds; it consults the `Release` path if and only if
the `InRelease` fetch failed with `RepositoryIoPath` of kind `NotFound`
(returning whatever the `Release` fetch yields); any other error is returned
unchanged without attempting the fallback. -/
theorem fetchInreleaseOrRelease_fallback_iff_notfound
    (inrel rel : Except DebianError ReleaseFile) :
    (∀ r, inrel = .ok r → fetchInreleaseOrRelease inrel rel = (.ok r, false)) ∧
    (∀ p, inrel = .error (.RepositoryIoPath p .NotFound) →
      fetchInreleaseOrRelease inrel rel = (rel, true)) ∧
    ((fetchInreleaseOrRelease inrel rel).2 = true ↔
      ∃ p, inrel = .error (.RepositoryIoPath p .NotFound)) ∧
    (∀ e, inrel = .error e → (∀ p, e ≠ .RepositoryIoPath p .NotFound) →
      fetchInreleaseOrRelease inrel rel = (.error e, false)) := by
  refine ⟨?_, ?_, ?_, ?_⟩
  · intro r h
    subst h
    rfl
  · intro p h
    subst h
    simp [fetchInreleaseOrRelease]
  · cases inrel with
    | ok r => simp [fetchInreleaseOrRelease]
    | error e =>
      cases e <;> simp [fetchInreleaseOrRelease]
      case RepositoryIoPath p k =>
        cases k <;> simp
  · intro e h hne
    subst h
    cases e <;> simp [fetchInreleaseOrRelease]
    case RepositoryIoPath p k =>
      cases k <;> simp_all [fetchInreleaseOrRelease]

/-- Witness for claim C4: with the `InRelease` fetch failing as `NotFound`,
the fallback is consulted and its (successful) result returned. -/
theorem fetchInreleaseOrRelease_fallback_iff_notfound_witness :
    fetchInreleaseOrRelease
        (.error (.RepositoryIoPath "dists/stable/InRelease" .NotFound))
        (.ok sampleRelease) =
      (.ok sampleRelease, true) :=
  (fetchInreleaseOrRelease_fallback_iff_notfound
      (.error (.RepositoryIoPath "dists/stable/InRelease" .NotFound))
      (.ok sampleRelease)).2.1 "dists/stable/InRelease" rfl

/-- Split a character list at its last slash into (directory, filename)
parts, if it contains a slash at all. -/
def rsplitSlashChars : List Char → Option (List Char × List Char)
  | [] => none
  | c :: rest =>
    match rsplitSlashChars rest with
    | some (dir, file) => some (c :: dir, file)
    | none => if c = '/' then some ([], rest) else none

/-- Split a path at its last slash into (directory, filename), if it has one. -/
def rsplitSlash (s : String) : Option (String × String) :=
  (rsplitSlashChars s.data).map (fun p => (String.mk p.1, String.mk p.2))

/-- Modelled from the spec: the by-hash form of an index path,
`\x7bdir_of(path)\x7d/by-hash/\x7bALGO\x7d/\x7blowercase-hex-digest\x7d` (§6),
used by `*FileEntry::by_hash_path` of `repository/release.rs`. A path with no
directory component keeps no leading slash. -/
def byHashPathOf (path : String) (digest : ContentDigest) : String :=
  match rsplitSlash path with
  | some (dir, _) =>
    dir ++ "/by-hash/" ++ digest.releaseFieldName ++ "/" ++ digest.digestHex
  | none => "by-hash/" ++ digest.releaseFieldName ++ "/" ++ digest.digestHex

/-- A `Packages` index entry (`PackagesFileEntry` of `repository/release.rs`):
a checksum-table row classified with component, architecture, installer flag
and compression. -/
structure PackagesFileEntry where
  component : String
  architecture : String
  isInstaller : Bool
  compression : Compression
  path : String
  size : Nat
  digest : ContentDigest
deriving DecidableEq, Repr

/-- A `Sources` index entry (`SourcesFileEntry` of `repository/release.rs`). -/
structure SourcesFileEntry where
  component : String
  compression : Compression
  path : String
  size : Nat
  digest : ContentDigest
deriving DecidableEq, Repr

/-- A `Contents` index entry (`ContentsFileEntry` of
`repository/release.rs`). -/
structure ContentsFileEntry where
  component : Option String
  architecture : String
  isInstaller : Bool
  compression : Compression
  path : String
  size : Nat
  digest : ContentDigest
deriving DecidableEq, Repr

/-- `PackagesFileEntry::by_hash_path`. -/
def PackagesFileEntry.byHashPath (e : PackagesFileEntry) : String :=
  byHashPathOf e.path e.digest

/-- `SourcesFileEntry::by_hash_path`. -/
def SourcesFileEntry.byHashPath (e : SourcesFileEntry) : String :=
  byHashPathOf e.path e.digest

/-- `ContentsFileEntry::by_hash_path`. -/
def ContentsFileEntry.byHashPath (e : ContentsFileEntry) : String :=
  byHashPathOf e.path e.digest

/-- The single request a resolver issues for one index entry: the effective
path together with the verification and decompression parameters passed to
`get_path_decoded_with_digest_verification`. -/
structure FetchRequest where
  path : String
  compression : Compression
  size : Nat
  digest : ContentDigest
deriving DecidableEq, Repr

/-- Path selection and request construction of
`ReleaseReader::resolve_packages_from_entry` (repository/mod.rs lines
468-497): when `release.acquire_by_hash()` defaults to false the nominal path
is used, otherwise the entry's by-hash path; exactly one request is issued. -/
def packagesFetchRequest (release : ReleaseFile) (entry : PackagesFileEntry) :
    FetchRequest :=
  { path :=
      if (release.acquireByHash).getD false then entry.byHashPath else entry.path
    compression := entry.compression
    size := entry.size
    digest := entry.digest }

/-- Path selection and request construction of
`ReleaseReader::resolve_sources_from_entry` (repository/mod.rs lines
593-622). -/
def sourcesFetchRequest (release : ReleaseFile) (entry : SourcesFileEntry) :
    FetchRequest :=
  { path :=
      if (release.acquireByHash).getD false then entry.byHashPath else entry.path
    compression := entry.compression
    size := entry.size
    digest := entry.digest }

/-- Path selection and request construction of
`ReleaseReader::resolve_contents` (repository/mod.rs lines 725-747), after
`contents_entry` has selected the entry. -/
def contentsFetchRequest (release : ReleaseFile) (entry : ContentsFileEntry) :
    FetchRequest :=
  { path :=
      if (release.acquireByHash).getD false then entry.byHashPath else entry.path
    compression := entry.compression
    size := entry.size
    digest := entry.digest }

/-- Claim C6: with `Acquire-By-Hash: yes` the single request issued by
`resolve_packages_from_entry` / `resolve_sources_from_entry` uses the entry's
by-hash path; with `Acquire-By-Hash: no` it uses the nominal path. Each
resolution issues exactly one request (one `FetchRequest` value), so the two
forms are never mixed. -/
theorem resolve_entry_by_hash_path_selection
    (release : ReleaseFile) (pe : PackagesFileEntry) (se : SourcesFileEntry) :
    (release.acquireByHash = some true →
      (packagesFetchRequest release pe).path = pe.byHashPath ∧
      (sourcesFetchRequest release se).path = se.byHashPath) ∧
    (release.acquireByHash = some false →
      (packagesFetchRequest release pe).path = pe.path ∧
      (sourcesFetchRequest release se).path = se.path) := by
  constructor
  · intro h
    constructor <;> simp [packagesFetchRequest, sourcesFetchRequest, h]
  · intro h
    constructor <;> simp [packagesFetchRequest, sourcesFetchRequest, h]

/-- A Release file with `Acquire-By-Hash: yes`. -/
def sampleReleaseByHash : ReleaseFile :=
  { fields :=
      [("Acquire-By-Hash", "yes"),
       ("SHA256", " abc 1 main/binary-amd64/Packages")] }

/-- A concrete Packages index entry for witnesses. -/
def samplePackagesEntry : PackagesFileEntry :=
  { component := "main"
    architecture := "amd64"
    isInstaller := false
    compression := .Xz
    path := "main/binary-amd64/Packages.xz"
    size := 1000
    digest := .sha256 [222, 173, 190, 239] }

/-- A concrete Sources index entry for witnesses. -/
def sampleSourcesEntry : SourcesFileEntry :=
  { component := "main"
    compression := .Gzip
    path := "main/source/Sources.gz"
    size := 500
    digest := .sha256 [1, 2, 3, 4] }

/-- Witness for claim C6: under `Acquire-By-Hash: yes` the Packages request
path is the by-hash path `main/binary-amd64/by-hash/SHA256/deadbeef`. -/
theorem resolve_entry_by_hash_path_selection_witness :
    (packagesFetchRequest sampleReleaseByHash samplePackagesEntry).path =
        "main/binary-amd64/by-hash/SHA256/deadbeef" ∧
    (sourcesFetchRequest sampleReleaseByHash sampleSourcesEntry).path =
        "main/source/by-hash/SHA256/01020304" := by
  have h :=
    (resolve_entry_by_hash_path_selection sampleReleaseByHash
      samplePackagesEntry sampleSourcesEntry).1 (by rfl)
  refine ⟨h.1.trans ?_, h.2.trans ?_⟩ <;> rfl

/-- A concrete Contents index entry for witnesses. -/
def sampleContentsEntry : ContentsFileEntry :=
  { component := some "main"
    architecture := "amd64"
    isInstaller := false
    compression := .Gzip
    path := "main/Contents-amd64.gz"
    size := 2000
    digest := .sha256 [5, 6] }

/-- Claim C9: a Release file with no `Acquire-By-Hash` field at all
(`acquire_by_hash()` is `None`, so `unwrap_or_default()` is false) behaves
like `Acquire-By-Hash: no` in all three resolvers: the nominal entry path is
requested. -/
theorem resolve_entry_no_acquire_by_hash_field
    (release : ReleaseFile) (pe : PackagesFileEntry) (se : SourcesFileEntry)
    (ce : ContentsFileEntry) (h : release.acquireByHash = none) :
    (packagesFetchRequest release pe).path = pe.path ∧
    (sourcesFetchRequest release se).path = se.path ∧
    (contentsFetchRequest release ce).path = ce.path := by
  refine ⟨?_, ?_, ?_⟩ <;>
    simp [packagesFetchRequest, sourcesFetchRequest, contentsFetchRequest, h]

/-- Witness for claim C9: `sampleRelease` has no `Acquire-By-Hash` field and
all three resolvers request the nominal paths. -/
theorem resolve_entry_no_acquire_by_hash_field_witness :
    (packagesFetchRequest sampleRelease samplePackagesEntry).path =
        samplePackagesEntry.path ∧
    (sourcesFetchRequest sampleRelease sampleSourcesEntry).path =
        sampleSourcesEntry.path ∧
    (contentsFetchRequest sampleRelease sampleContentsEntry).path =
        sampleContentsEntry.path :=
  resolve_entry_no_acquire_by_hash_field sampleRelease samplePackagesEntry
    sampleSourcesEntry sampleContentsEntry (by rfl)

/-- Repository path verification state
(`RepositoryPathVerificationState`, repository/mod.rs lines 764-773). -/
inductive RepositoryPathVerificationState where
  | ExistsNoIntegrityCheck
  | ExistsIntegrityVerified
  | ExistsIntegrityMismatch
  | Missing
deriving DecidableEq, Repr

/-- Result of a repository path verification
(`RepositoryPathVerification`, repository/mod.rs lines 777-782). -/
structure RepositoryPathVerification where
  path : String
  state : RepositoryPathVerificationState
deriving DecidableEq, Repr

/-- A successful write (`RepositoryWrite`, repository/mod.rs lines 960-965). -/
structure RepositoryWrite where
  path : String
  bytesWritten : Nat
deriving DecidableEq, Repr

/-- Result of a repository write operation
(`RepositoryWriteOperation`, repository/mod.rs lines 968-973). -/
inductive RepositoryWriteOperation where
  | PathWritten (write : RepositoryWrite)
  | Noop (path : String) (size : Nat)
deriving DecidableEq, Repr

/-- `RepositoryWriteOperation::bytes_written`
(repository/mod.rs lines 976-981). -/
def RepositoryWriteOperation.bytesWritten : RepositoryWriteOperation → Nat
  | .PathWritten w => w.bytesWritten
  | .Noop _ size => size

/-- An I/O call `copy_from` can make on its collaborators. -/
inductive CopyCall where
  | verifyPath (path : String) (expected : Option (Nat × ContentDigest))
  | getPath (path : String)
  | getPathWithDigestVerification (path : String) (size : Nat) (digest : ContentDigest)
  | writePath (path : String)
deriving DecidableEq, Repr

/-- One observable step of `copy_from`: either a progress event delivered to
the callback or an I/O call on the reader/writer. -/
inductive CopyStep where
  | event (e : PublishEvent)
  | call (c : CopyCall)
deriving DecidableEq, Repr

/-- The collaborators `copy_from` interacts with: the writer's `verify_path`
and `write_path` outcomes, the reader's `get_path` /
`get_path_with_digest_verification` outcomes (streams abstracted to their
success or failure), and whether a progress callback was supplied. -/
structure CopyEnv where
  verifyPathFn : String → Option (Nat × ContentDigest) →
    Except DebianError RepositoryPathVerification
  getPathOk : String → Except DebianError Unit
  getPathVerifiedOk : String → Nat → ContentDigest → Except DebianError Unit
  writePathFn : String → Except DebianError RepositoryWrite
  hasProgressCb : Bool

/-- `RepositoryWriter::copy_from` (repository/mod.rs lines 1023-1073),
returning the interleaved trace of events and calls together with the
result. The trace order is the program order of the source: the
`VerifyingDestinationPath` event (when a callback is present), the
`verify_path` call, then — unless the state is `ExistsIntegrityVerified`,
which returns `Noop(dest_path, size or 0)` at once — the `CopyingPath` event,
the reader call (digest-verifying exactly when `expected_content` is given)
and the `write_path` call. -/
def copyFrom (env : CopyEnv) (sourcePath destPath : String)
    (expectedContent : Option (Nat × ContentDigest)) :
    List CopyStep × Except DebianError RepositoryWriteOperation :=
  let steps1 :=
    (if env.hasProgressCb
      then [CopyStep.event (.VerifyingDestinationPath destPath)] else []) ++
    [CopyStep.call (.verifyPath destPath expectedContent)]
  match env.verifyPathFn destPath expectedContent with
  | .error e => (steps1, .error e)
  | .ok verification =>
    if verification.state = .ExistsIntegrityVerified then
      (steps1,
       .ok (.Noop destPath
         (match expectedContent with
          | some (size, _) => size
          | none => 0)))
    else
      let steps2 := steps1 ++
        (if env.hasProgressCb
          then [CopyStep.event (.CopyingPath sourcePath destPath)] else [])
      match expectedContent with
      | some (size, digest) =>
        let steps3 := steps2 ++
          [CopyStep.call (.getPathWithDigestVerification sourcePath size digest)]
        match env.getPathVerifiedOk sourcePath size digest with
        | .error e => (steps3, .error e)
        | .ok _ =>
          let steps4 := steps3 ++ [CopyStep.call (.writePath destPath)]
          match env.writePathFn destPath with
          | .error e => (steps4, .error e)
          | .ok w => (steps4, .ok (.PathWritten w))
      | none =>
        let steps3 := steps2 ++ [CopyStep.call (.getPath sourcePath)]
        match env.getPathOk sourcePath with
        | .error e => (steps3, .error e)
        | .ok _ =>
          let steps4 := steps3 ++ [CopyStep.call (.writePath destPath)]
          match env.writePathFn destPath with
          | .error e => (steps4, .error e)
          | .ok w => (steps4, .ok (.PathWritten w))

/-- Claim C3: with a progress callback present, `copy_from` emits
`VerifyingDestinationPath(dest)` before calling `verify_path`, and when
`verify_path` returns `ExistsIntegrityVerified` it returns
`Noop(dest_path, size)` — `size` being the size component of
`expected_content`, or 0 when absent — with no reader call
(`get_path` or `get_path_with_digest_verification`), no `write_path` call and
no `CopyingPath` event: the whole trace is the event followed by the
`verify_path` call. -/
theorem copyFrom_verified_noop (env : CopyEnv) (sourcePath destPath : String)
    (expectedContent : Option (Nat × ContentDigest))
    (v : RepositoryPathVerification)
    (hcb : env.hasProgressCb = true)
    (hver : env.verifyPathFn destPath expectedContent = .ok v)
    (hst : v.state = .ExistsIntegrityVerified) :
    copyFrom env sourcePath destPath expectedContent =
      ([.event (.VerifyingDestinationPath destPath),
        .call (.verifyPath destPath expectedContent)],
       .ok (.Noop destPath
         (match expectedContent with
          | some (size, _) => size
          | none => 0))) := by
  simp [copyFrom, hcb, hver, hst]
  cases expectedContent <;> rfl

/-- A copy environment for witnesses: the destination verifies. -/
def sampleVerifiedEnv : CopyEnv :=
  { verifyPathFn := fun p _ => .ok { path := p, state := .ExistsIntegrityVerified }
    getPathOk := fun _ => .ok ()
    getPathVerifiedOk := fun _ _ _ => .ok ()
    writePathFn := fun p => .ok { path := p, bytesWritten := 7 }
    hasProgressCb := true }

/-- Witness for claim C3 at a concrete environment, paths and expected
content. -/
theorem copyFrom_verified_noop_witness :
    copyFrom sampleVerifiedEnv "pool/a.deb" "pool/b.deb"
        (some (42, .sha256 [1])) =
      ([.event (.VerifyingDestinationPath "pool/b.deb"),
        .call (.verifyPath "pool/b.deb" (some (42, .sha256 [1])))],
       .ok (.Noop "pool/b.deb" 42)) :=
  copyFrom_verified_noop sampleVerifiedEnv "pool/a.deb" "pool/b.deb"
    (some (42, .sha256 [1]))
    { path := "pool/b.deb", state := .ExistsIntegrityVerified }
    rfl rfl rfl

/-- Sequential collection of fallible results, the embedding of
`.map(...).collect::<Result<Vec<_>>>()`: the first error aborts. -/
def collectResults (f : κ → Except DebianError β) : List κ → Except DebianError (List β)
  | [] => .ok []
  | k :: rest =>
    match f k with
    | .error e => .error e
    | .ok w =>
      match collectResults f rest with
      | .error e => .error e
      | .ok ws => .ok (w :: ws)

/-- A successful `collectResults` run is pointwise successful. -/
theorem collectResults_ok_forall2 {f : κ → Except DebianError β} :
    ∀ {ks : List κ} {ws : List β}, collectResults f ks = .ok ws →
      List.Forall₂ (fun k w => f k = .ok w) ks ws := by
  intro ks
  induction ks with
  | nil =>
    intro ws h
    cases h
    exact List.Forall₂.nil
  | cons k rest ih =>
    intro ws h
    simp only [collectResults] at h
    cases hk : f k with
    | error e => rw [hk] at h; cases h
    | ok w =>
      rw [hk] at h
      cases hrest : collectResults f rest with
      | error e => rw [hrest] at h; cases h
      | ok tail =>
        rw [hrest] at h
        cases h
        exact List.Forall₂.cons hk (ih hrest)

/-- Mapping each right element back to its left partner recovers the left
list. -/
theorem forall2_map_eq {R : κ → β → Prop} {g : β → κ} :
    ∀ {ks : List κ} {ws : List β}, List.Forall₂ R ks ws →
      (∀ k w, R k w → g w = k) → ws.map g = ks := by
  intro ks ws h hg
  induction h with
  | nil => rfl
  | cons hkw _ ih => simp [List.map_cons, hg _ _ hkw, ih]

/-- Each left element of a `Forall₂` has a related right partner. -/
theorem forall2_mem {R : κ → β → Prop} :
    ∀ {ks : List κ} {ws : List β}, List.Forall₂ R ks ws →
      ∀ k, k ∈ ks → ∃ w, w ∈ ws ∧ R k w := by
  intro ks ws h
  induction h with
  | nil => intro k hk; cases hk
  | cons hkw _ ih =>
    intro k hk
    rcases List.mem_cons.mp hk with hk | hk
    · exact ⟨_, List.mem_cons_self _ _, hk ▸ hkw⟩
    · rcases ih k hk with ⟨w, hw, hR⟩
      exact ⟨w, List.mem_cons_of_mem _ hw, hR⟩

/-- Winner selection within one group of index-entry candidates, the shared
shape of repository/mod.rs lines 348-366 (`Packages`), 424-442 (`Sources`)
and 706-722 (`Contents`): take the first candidate matching the preferred
compression; otherwise walk `Compression::default_preferred_order()` and take
the first candidate carrying the first available format; otherwise fail with
the error of the call site, which is passed in. -/
def preferredCompressionWinner (err : DebianError) (pref : Compression)
    (compressionOf : α → Compression) (candidates : List α) :
    Except DebianError α :=
  match candidates.find? (fun e => decide (compressionOf e = pref)) with
  | some e => .ok e
  | none =>
    match Compression.defaultPreferredOrder.findSome?
        (fun c => candidates.find? (fun e => decide (compressionOf e = c))) with
    | some e => .ok e
    | none => .error err

/-- The winner of a group is one of its candidates. -/
theorem preferredCompressionWinner_mem {err : DebianError} {pref : Compression}
    {compressionOf : α → Compression} {candidates : List α} {e : α}
    (h : preferredCompressionWinner err pref compressionOf candidates = .ok e) :
    e ∈ candidates := by
  unfold preferredCompressionWinner at h
  cases h1 : candidates.find? (fun x => decide (compressionOf x = pref)) with
  | some w =>
    rw [h1] at h
    cases h
    exact List.mem_of_find?_eq_some h1
  | none =>
    rw [h1] at h
    cases h2 : Compression.defaultPreferredOrder.findSome?
        (fun c => candidates.find? (fun x => decide (compressionOf x = c))) with
    | some w =>
      rw [h2] at h
      cases h
      rcases List.exists_of_findSome?_eq_some h2 with ⟨c, _, hc⟩
      exact List.mem_of_find?_eq_some hc
    | none => rw [h2] at h; cases h

/-- A candidate matching the preferred compression wins its group. -/
theorem preferredCompressionWinner_preferred {err : DebianError}
    {pref : Compression} {compressionOf : α → Compression}
    {candidates : List α} {e : α}
    (h : candidates.find? (fun x => decide (compressionOf x = pref)) = some e) :
    preferredCompressionWinner err pref compressionOf candidates = .ok e := by
  unfold preferredCompressionWinner
  rw [h]

/-- With no candidate at the preferred compression, the group's winner is the
first candidate found while walking `Compression::default_preferred_order()`. -/
theorem preferredCompressionWinner_fallback {err : DebianError}
    {pref : Compression} {compressionOf : α → Compression}
    {candidates : List α} {e : α}
    (h1 : candidates.find? (fun x => decide (compressionOf x = pref)) = none)
    (h2 : Compression.defaultPreferredOrder.findSome?
        (fun c => candidates.find? (fun x => decide (compressionOf x = c))) =
      some e) :
    preferredCompressionWinner err pref compressionOf candidates = .ok e := by
  unfold preferredCompressionWinner
  rw [h1, h2]

/-- The grouping key of a `Packages` index entry used by
`packages_indices_entries_preferred_compression`:
`(component, architecture, is_installer)`. -/
def pkgKey (e : PackagesFileEntry) : String × String × Bool :=
  (e.component, e.architecture, e.isInstaller)

/-- `ReleaseReader::packages_indices_entries_preferred_compression`
(repository/mod.rs lines 332-368): group the entries by
`(component, architecture, is_installer)`, then emit one winner per group via
the preferred-compression selection, failing a group with
`RepositoryReadPackagesIndicesEntryNotFound`. The source accumulates groups
in a `HashMap` whose value lists keep insertion order; its iteration order
over groups is unspecified and is fixed here to first-occurrence order of the
keys. -/
def packagesIndicesEntriesPreferredCompression (pref : Compression)
    (entries : List PackagesFileEntry) :
    Except DebianError (List PackagesFileEntry) :=
  collectResults
    (fun k =>
      preferredCompressionWinner .RepositoryReadPackagesIndicesEntryNotFound
        pref PackagesFileEntry.compression
        (entries.filter (fun e => decide (pkgKey e = k))))
    ((entries.map pkgKey).dedup)

/-- `ReleaseReader::sources_indices_entries_preferred_compression`
(repository/mod.rs lines 412-444): group the entries by component, then emit
one winner per group. NOTE: the error raised by a group with no acceptable
compression is `RepositoryReadPackagesIndicesEntryNotFound` (line 440), not
the Sources variant. -/
def sourcesIndicesEntriesPreferredCompression (pref : Compression)
    (entries : List SourcesFileEntry) :
    Except DebianError (List SourcesFileEntry) :=
  collectResults
    (fun k =>
      preferredCompressionWinner .RepositoryReadPackagesIndicesEntryNotFound
        pref SourcesFileEntry.compression
        (entries.filter (fun e => decide (e.component = k))))
    ((entries.map SourcesFileEntry.component).dedup)

/-- Claim C2: on success, `packages_indices_entries_preferred_compression`
emits exactly one winner per `(component, architecture, is_installer)` group
(the winners' keys enumerate the distinct keys of the input); whenever a
group contains an entry whose compression equals the preferred compression,
the group's winner is precisely the first such entry of the group; and for a
group with no preferred-compression entry, the winner is the first entry
found when walking `Compression::default_preferred_order()` (the first
candidate carrying the first compression of that order present in the
group). -/
theorem packages_preferred_compression_collapse (pref : Compression)
    (entries winners : List PackagesFileEntry)
    (h : packagesIndicesEntriesPreferredCompression pref entries = .ok winners) :
    winners.map pkgKey = (entries.map pkgKey).dedup ∧
    (∀ k, k ∈ (entries.map pkgKey).dedup → ∀ e,
      (entries.filter (fun x => decide (pkgKey x = k))).find?
          (fun x => decide (x.compression = pref)) = some e →
      e ∈ winners) ∧
    (∀ k, k ∈ (entries.map pkgKey).dedup →
      (entries.filter (fun x => decide (pkgKey x = k))).find?
          (fun x => decide (x.compression = pref)) = none →
      ∀ e, Compression.defaultPreferredOrder.findSome?
          (fun c => (entries.filter (fun x => decide (pkgKey x = k))).find?
            (fun x => decide (x.compression = c))) = some e →
      e ∈ winners) := by
  have hf2 := collectResults_ok_forall2 h
  refine ⟨?_, ?_, ?_⟩
  · refine forall2_map_eq hf2 ?_
    intro k w hw
    have hmem := preferredCompressionWinner_mem hw
    have := (List.mem_filter.mp hmem).2
    exact of_decide_eq_true this
  · intro k hk e he
    rcases forall2_mem hf2 k hk with ⟨w, hwmem, hw⟩
    have hwin :
        preferredCompressionWinner .RepositoryReadPackagesIndicesEntryNotFound
          pref PackagesFileEntry.compression
          (entries.filter (fun x => decide (pkgKey x = k))) = .ok e :=
      preferredCompressionWinner_preferred he
    rw [hw] at hwin
    cases hwin
    exact hwmem
  · intro k hk hnone e he
    rcases forall2_mem hf2 k hk with ⟨w, hwmem, hw⟩
    have hwin :
        preferredCompressionWinner .RepositoryReadPackagesIndicesEntryNotFound
          pref PackagesFileEntry.compression
          (entries.filter (fun x => decide (pkgKey x = k))) = .ok e :=
      preferredCompressionWinner_fallback hnone he
    rw [hw] at hwin
    cases hwin
    exact hwmem

/-- An uncompressed Packages entry sharing a key with
`samplePackagesEntry`. -/
def samplePackagesEntryPlain : PackagesFileEntry :=
  { component := "main"
    architecture := "amd64"
    isInstaller := false
    compression := .None
    path := "main/binary-amd64/Packages"
    size := 3000
    digest := .sha256 [9, 9] }

/-- A gzip-compressed Packages entry sharing a key with
`samplePackagesEntry`. -/
def samplePackagesEntryGz : PackagesFileEntry :=
  { component := "main"
    architecture := "amd64"
    isInstaller := false
    compression := .Gzip
    path := "main/binary-amd64/Packages.gz"
    size := 1500
    digest := .sha256 [8, 8] }

/-- Witness for claim C2: with a plain and an xz variant of the same logical
`Packages` file and preferred compression Xz, the collapse returns exactly
the xz entry; and with only a gzip and a plain variant published (no xz),
the collapse falls back to the gzip entry, the first hit of the default
order. -/
theorem packages_preferred_compression_collapse_witness :
    ([samplePackagesEntry].map pkgKey =
      (([samplePackagesEntryPlain, samplePackagesEntry].map pkgKey).dedup) ∧
     samplePackagesEntry ∈ [samplePackagesEntry]) ∧
    samplePackagesEntryGz ∈ [samplePackagesEntryGz] := by
  constructor
  · have h : packagesIndicesEntriesPreferredCompression .Xz
        [samplePackagesEntryPlain, samplePackagesEntry] =
        .ok [samplePackagesEntry] := by rfl
    have t := packages_preferred_compression_collapse .Xz
      [samplePackagesEntryPlain, samplePackagesEntry] [samplePackagesEntry] h
    refine ⟨t.1, ?_⟩
    exact t.2.1 (pkgKey samplePackagesEntry) (by decide) samplePackagesEntry
      (by decide)
  · have h : packagesIndicesEntriesPreferredCompression .Xz
        [samplePackagesEntryGz, samplePackagesEntryPlain] =
        .ok [samplePackagesEntryGz] := by rfl
    have t := packages_preferred_compression_collapse .Xz
      [samplePackagesEntryGz, samplePackagesEntryPlain] [samplePackagesEntryGz] h
    exact t.2.2 (pkgKey samplePackagesEntryGz) (by decide) (by decide)
      samplePackagesEntryGz (by decide)

/-- A Sources entry published only as Zstandard: Zstd matches neither a
non-Zstd preferred compression nor any member of the default fallback
order. -/
def zstdSourcesEntry : SourcesFileEntry :=
  { component := "main"
    compression := .Zstd
    path := "main/source/Sources.zst"
    size := 100
    digest := .sha256 [7] }

/-- Claim C5 (code bug): a `Sources` group with no acceptable compression
makes `sources_indices_entries_preferred_compression` fail with
`RepositoryReadPackagesIndicesEntryNotFound` — the `Packages` error of
repository/mod.rs line 440 — and not with
`RepositoryReadSourcesIndicesEntryNotFound` as the specification states. -/
theorem sources_preferred_compression_wrong_error :
    sourcesIndicesEntriesPreferredCompression .Xz [zstdSourcesEntry] =
      .error .RepositoryReadPackagesIndicesEntryNotFound ∧
    DebianError.RepositoryReadPackagesIndicesEntryNotFound ≠
      DebianError.RepositoryReadSourcesIndicesEntryNotFound := by
  constructor
  · rfl
  · decide

/-- A binary package control paragraph
(`BinaryPackageControlFile`): an association list of fields. -/
structure BinaryPackageControlFile where
  fields : List (String × String)
deriving DecidableEq, Repr

/-- `field_str`: look a field up by name. -/
def BinaryPackageControlFile.fieldStr (cf : BinaryPackageControlFile)
    (name : String) : Option String :=
  (cf.fields.find? (fun p => p.1 = name)).map (fun p => p.2)

/-- `required_field_str`: a missing field is
`ControlRequiredFieldMissing(name)`. -/
def BinaryPackageControlFile.requiredFieldStr (cf : BinaryPackageControlFile)
    (name : String) : Except DebianError String :=
  match cf.fieldStr name with
  | some v => .ok v
  | none => .error (.ControlRequiredFieldMissing name)

/-- Value of a run of decimal digits, left to right; `none` on a
non-digit. -/
def decimalNatAux (acc : Nat) : List Char → Option Nat
  | [] => some acc
  | c :: rest =>
    if 48 ≤ c.toNat ∧ c.toNat ≤ 57 then
      decimalNatAux (acc * 10 + (c.toNat - 48)) rest
    else none

/-- Parse a non-empty all-digit decimal string. (A leading `+`, which Rust's
`u64::from_str` also accepts, never occurs in control file sizes.) -/
def decimalNat? (s : String) : Option Nat :=
  match s.data with
  | [] => none
  | cs => decimalNatAux 0 cs

/-- Parse a decimal `u64`; a non-numeric or overflowing value is
`ControlFieldIntParse(name)` as `u64::from_str` reports `ParseIntError`. -/
def parseU64 (name s : String) : Except DebianError Nat :=
  match decimalNat? s with
  | some n => if n < 2 ^ 64 then .ok n else .error (.ControlFieldIntParse name)
  | none => .error (.ControlFieldIntParse name)

/-- `field_u64`: `None` when the field is absent, otherwise the parse
outcome. -/
def BinaryPackageControlFile.fieldU64 (cf : BinaryPackageControlFile)
    (name : String) : Option (Except DebianError Nat) :=
  (cf.fieldStr name).map (parseU64 name)

/-- Modelled from the spec: `ContentDigest::from_hex_digest` (§3:
"Constructible from a hex string; fails with `BadHex` on malformed input"),
tagging the decoded bytes with the requested algorithm. -/
def ContentDigest.fromHexDigest (checksum : ChecksumType) (hexDigest : String) :
    Except DebianError ContentDigest :=
  match hexBytes hexDigest.data with
  | none => .error (.ContentDigestBadHex hexDigest)
  | some bs =>
    .ok (match checksum with
      | .Md5 => .md5 bs
      | .Sha1 => .sha1 bs
      | .Sha256 => .sha256 bs)

/-- A binary package fetch instruction (`BinaryPackageFetch`,
repository/mod.rs lines 106-117). -/
structure BinaryPackageFetch where
  controlFile : BinaryPackageControlFile
  path : String
  size : Nat
  digest : ContentDigest
deriving DecidableEq, Repr

/-- The digest step of `resolve_package_fetches` (repository/mod.rs lines
557-563): `ChecksumType::preferred_order().find_map(...)` over the checksum
fields, `ok_or(RepositoryReadCouldNotDeterminePackageDigest)` and the double
`??` unwrap of the hex parse. -/
def packageDigest (cf : BinaryPackageControlFile) :
    Except DebianError ContentDigest :=
  match ChecksumType.preferredOrder.findSome?
      (fun checksum =>
        (cf.fieldStr checksum.fieldName).map
          (fun hexDigest => ContentDigest.fromHexDigest checksum hexDigest)) with
  | some r => r
  | none => .error .RepositoryReadCouldNotDeterminePackageDigest

/-- The per-paragraph body of `resolve_package_fetches` (repository/mod.rs
lines 551-570): extract `Filename`, `Size` (whose absence is
`ControlRequiredFieldMissing("Size")`) and the digest, and build the fetch. -/
def binaryPackageFetchOfParagraph (cf : BinaryPackageControlFile) :
    Except DebianError BinaryPackageFetch :=
  match cf.requiredFieldStr "Filename" with
  | .error e => .error e
  | .ok path =>
    match cf.fieldU64 "Size" with
    | none => .error (.ControlRequiredFieldMissing "Size")
    | some (.error e) => .error e
    | some (.ok size) =>
      match packageDigest cf with
      | .error e => .error e
      | .ok digest =>
        .ok { controlFile := cf, path := path, size := size, digest := digest }

/-- The accumulation loop of `resolve_package_fetches` (repository/mod.rs
lines 545-573) over the concatenated stream of parsed paragraphs: paragraphs
accepted by `binary_package_filter` are expanded into fetches, the first
error aborts. -/
def resolvePackageFetchesFromList
    (binaryPackageFilter : BinaryPackageControlFile → Bool) :
    List BinaryPackageControlFile → Except DebianError (List BinaryPackageFetch)
  | [] => .ok []
  | cf :: rest =>
    if binaryPackageFilter cf then
      match binaryPackageFetchOfParagraph cf with
      | .error e => .error e
      | .ok fetch =>
        match resolvePackageFetchesFromList binaryPackageFilter rest with
        | .error e => .error e
        | .ok fetches => .ok (fetch :: fetches)
    else resolvePackageFetchesFromList binaryPackageFilter rest

/-- The first checksum field present on a paragraph when walking
`ChecksumType::preferred_order()` (SHA256, then SHA1, then MD5), with its
value. This is the specification-side description of the digest walk. -/
def firstPresentChecksum (cf : BinaryPackageControlFile) :
    Option (ChecksumType × String) :=
  ChecksumType.preferredOrder.findSome?
    (fun checksum =>
      (cf.fieldStr checksum.fieldName).map (fun hexDigest => (checksum, hexDigest)))

/-- A `findSome?` over `Option.map` of a common lookup transports between two
mapped forms: if pairing finds `(a, b)`, mapping by `g` finds `g a b`. -/
theorem findSome_map_pair {u : α → Option β} {g : α → β → γ} :
    ∀ {l : List α} {a : α} {b : β},
      l.findSome? (fun x => (u x).map (fun y => (x, y))) = some (a, b) →
      l.findSome? (fun x => (u x).map (g x)) = some (g a b) := by
  intro l
  induction l with
  | nil => intro a b h; cases h
  | cons x rest ih =>
    intro a b h
    rw [List.findSome?_cons] at h
    rw [List.findSome?_cons]
    cases hu : u x with
    | some y =>
      rw [hu] at h
      have hxy : ((x, y) : _ × _) = (a, b) := Option.some.inj h
      cases hxy
      simp [hu]
    | none =>
      rw [hu] at h
      exact ih h

/-- A `findSome?` over `Option.map` of a common lookup is `none` exactly when
the paired form is. -/
theorem findSome_map_none {u : α → Option β} {g : α → β → γ} :
    ∀ {l : List α},
      l.findSome? (fun x => (u x).map (fun y => (x, y))) = none →
      l.findSome? (fun x => (u x).map (g x)) = none := by
  intro l
  induction l with
  | nil => intro _; rfl
  | cons x rest ih =>
    intro h
    rw [List.findSome?_cons] at h
    rw [List.findSome?_cons]
    cases hu : u x with
    | some y => rw [hu] at h; cases h
    | none =>
      rw [hu] at h
      exact ih h

/-- Claim C7: inside `resolve_package_fetches`, every paragraph accepted by
the binary package filter gets its digest by walking
`ChecksumType::preferred_order()` (SHA256, SHA1, MD5) and hex-parsing the
first checksum field present (so the digest of an emitted fetch is the parse
of that field), and a paragraph with none of the three fields fails the call
with `RepositoryReadCouldNotDeterminePackageDigest`. -/
theorem resolve_package_fetches_digest_walk :
    (∀ cf : BinaryPackageControlFile, ∀ p n,
      cf.requiredFieldStr "Filename" = .ok p →
      cf.fieldU64 "Size" = some (.ok n) →
      firstPresentChecksum cf = none →
      binaryPackageFetchOfParagraph cf =
        .error .RepositoryReadCouldNotDeterminePackageDigest) ∧
    (∀ cf : BinaryPackageControlFile, ∀ c hexDigest fetch,
      firstPresentChecksum cf = some (c, hexDigest) →
      binaryPackageFetchOfParagraph cf = .ok fetch →
      ContentDigest.fromHexDigest c hexDigest = .ok fetch.digest) ∧
    (∀ binaryPackageFilter cfs fetches,
      resolvePackageFetchesFromList binaryPackageFilter cfs = .ok fetches →
      ∀ fetch, fetch ∈ fetches → ∃ cf, cf ∈ cfs ∧
        binaryPackageFilter cf = true ∧
        binaryPackageFetchOfParagraph cf = .ok fetch) := by
  refine ⟨?_, ?_, ?_⟩
  · intro cf p n hp hn hnone
    have hdig : packageDigest cf =
        .error .RepositoryReadCouldNotDeterminePackageDigest := by
      unfold packageDigest
      rw [findSome_map_none hnone]
    simp [binaryPackageFetchOfParagraph, hp, hn, hdig]
  · intro cf c hexDigest fetch hfirst hok
    have hdig : packageDigest cf = ContentDigest.fromHexDigest c hexDigest := by
      unfold packageDigest
      rw [findSome_map_pair hfirst]
    unfold binaryPackageFetchOfParagraph at hok
    cases hfn : cf.requiredFieldStr "Filename" with
    | error e => rw [hfn] at hok; cases hok
    | ok p =>
      rw [hfn] at hok
      cases hsz : cf.fieldU64 "Size" with
      | none => rw [hsz] at hok; cases hok
      | some r =>
        rw [hsz] at hok
        cases r with
        | error e => cases hok
        | ok n =>
          rw [hdig] at hok
          cases hdr : ContentDigest.fromHexDigest c hexDigest with
          | error e => rw [hdr] at hok; cases hok
          | ok d =>
            rw [hdr] at hok
            cases hok
            rfl
  · intro binaryPackageFilter cfs
    induction cfs with
    | nil =>
      intro fetches h fetch hmem
      cases h
      cases hmem
    | cons cf rest ih =>
      intro fetches h fetch hmem
      by_cases hf : binaryPackageFilter cf = true
      · rw [resolvePackageFetchesFromList, if_pos hf] at h
        cases hcf : binaryPackageFetchOfParagraph cf with
        | error e => rw [hcf] at h; cases h
        | ok w =>
          rw [hcf] at h
          cases hrest : resolvePackageFetchesFromList binaryPackageFilter rest with
          | error e => rw [hrest] at h; cases h
          | ok ws =>
            rw [hrest] at h
            cases h
            rcases List.mem_cons.mp hmem with hmem | hmem
            · exact ⟨cf, List.mem_cons_self _ _, hf, hmem ▸ hcf⟩
            · rcases ih ws hrest fetch hmem with ⟨cf2, hcf2, hfl, hfe⟩
              exact ⟨cf2, List.mem_cons_of_mem _ hcf2, hfl, hfe⟩
      · rw [resolvePackageFetchesFromList, if_neg hf] at h
        rcases ih fetches h fetch hmem with ⟨cf2, hcf2, hfl, hfe⟩
        exact ⟨cf2, List.mem_cons_of_mem _ hcf2, hfl, hfe⟩

/-- A control paragraph carrying Filename, Size, and both SHA256 and MD5sum
checksum fields. -/
def sampleParagraph : BinaryPackageControlFile :=
  { fields :=
      [("Package", "hello"),
       ("Filename", "pool/main/h/hello/hello_1.0_amd64.deb"),
       ("Size", "2048"),
       ("MD5Sum", "00ff"),
       ("SHA256", "deadbeef")] }

/-- Witness for claim C7: on a concrete paragraph carrying both SHA256 and
MD5 fields, the digest of the emitted fetch is the hex parse of the SHA256
field. -/
theorem resolve_package_fetches_digest_walk_witness :
    ContentDigest.fromHexDigest .Sha256 "deadbeef" =
      .ok (.sha256 [222, 173, 190, 239]) ∧
    ∃ cf, cf ∈ [sampleParagraph] ∧ (fun _ => true) cf = true ∧
      binaryPackageFetchOfParagraph cf =
        .ok { controlFile := sampleParagraph
              path := "pool/main/h/hello/hello_1.0_amd64.deb"
              size := 2048
              digest := .sha256 [222, 173, 190, 239] } := by
  constructor
  · exact resolve_package_fetches_digest_walk.2.1 sampleParagraph .Sha256
      "deadbeef"
      { controlFile := sampleParagraph
        path := "pool/main/h/hello/hello_1.0_amd64.deb"
        size := 2048
        digest := .sha256 [222, 173, 190, 239] }
      (by rfl) (by rfl)
  · exact resolve_package_fetches_digest_walk.2.2 (fun _ => true)
      [sampleParagraph] _ (by rfl) _ (List.mem_singleton.mpr rfl)

/-- Split a character list at the first occurrence of a (non-empty)
separator. -/
def splitOnceChars (sep : List Char) : List Char → Option (List Char × List Char)
  | [] => none
  | c :: rest =>
    if sep.isPrefixOf (c :: rest) then some ([], (c :: rest).drop sep.length)
    else (splitOnceChars sep rest).map (fun p => (c :: p.1, p.2))

/-- Split a string at the first occurrence of a separator. -/
def splitOnceStr (s sep : String) : Option (String × String) :=
  (splitOnceChars sep.data s.data).map (fun p => (String.mk p.1, String.mk p.2))

/-- The authority component of what follows `://`: the characters before the
first `/`, `?` or `#`. The URLs in scope carry no userinfo or port, so this
is the host. -/
def authorityChars : List Char → List Char
  | [] => []
  | c :: rest =>
    if c = '/' ∨ c = '?' ∨ c = '#' then [] else c :: authorityChars rest

/-- The host of the part after `://`, as `url::Url::host_str` reports it for
the URLs in scope: `none` when the authority is empty (the host of
`null://` is absent), otherwise the authority string. -/
def hostOfRest (rest : String) : Option String :=
  match authorityChars rest.data with
  | [] => none
  | cs => some (String.mk cs)

/-- The path component of what follows `://`: from the first `/` onward. -/
def pathChars : List Char → List Char
  | [] => []
  | c :: rest => if c = '/' then c :: rest else pathChars rest

/-- The path of the part after `://`. -/
def urlPath (rest : String) : String :=
  String.mk (pathChars rest.data)

/-- Strip leading and trailing slashes (`str::trim_matches('/')`). -/
def trimSlashes (s : String) : String :=
  String.mk (((s.data.dropWhile (fun c => c = '/')).reverse.dropWhile
    (fun c => c = '/')).reverse)

/-- The repository writer backend selected by `writer_from_str`, reduced to
its constructor arguments. -/
inductive WriterBackend where
  | filesystem (path : String)
  | sink (behavior : SinkWriterVerifyBehavior)
  | s3 (bucket : String) (pfx : Option String)
deriving DecidableEq, Repr

/-- Modelled from the spec: `SinkWriterVerifyBehavior::from_str` of
`repository/sink_writer.rs`; §4.5 recognizes the hosts `missing`,
`exists-no-integrity-check`, `exists-integrity-verified` and
`exists-integrity-mismatch`, and any other host is
`SinkWriterVerifyBehaviorUnknown`. -/
def sinkWriterVerifyBehaviorFromStr (s : String) :
    Except DebianError SinkWriterVerifyBehavior :=
  if s = "missing" then .ok .Missing
  else if s = "exists-no-integrity-check" then .ok .ExistsNoIntegrityCheck
  else if s = "exists-integrity-verified" then .ok .ExistsIntegrityVerified
  else if s = "exists-integrity-mismatch" then .ok .ExistsIntegrityMismatch
  else .error (.SinkWriterVerifyBehaviorUnknown s)

/-- `writer_from_str` (repository/mod.rs lines 1111-1153). URL parsing is
modelled only as deeply as the dispatch needs: a string without `://` is a
filesystem path; otherwise the scheme selects the backend, an absent host on
a `null://` URL means the `Missing` verify behavior, and an unknown scheme is
`RepositoryWriterUnrecognizedUrl`. An unparseable URL (empty scheme)
surfaces the `url` crate's error as `DebianError::Url`. -/
def writerFromStr (s : String) : Except DebianError WriterBackend :=
  match splitOnceStr s "://" with
  | none => .ok (.filesystem s)
  | some (scheme, rest) =>
    if scheme = "" then .error .Url
    else if scheme = "file" then .ok (.filesystem (urlPath rest))
    else if scheme = "null" then
      match hostOfRest rest with
      | some h =>
        match sinkWriterVerifyBehaviorFromStr h with
        | .ok behavior => .ok (.sink behavior)
        | .error e => .error e
      | none => .ok (.sink .Missing)
    else if scheme = "s3" then
      match splitOnceStr (trimSlashes (urlPath rest)) "/" with
      | some (bucket, pfx) => .ok (.s3 bucket (some pfx))
      | none => .ok (.s3 (urlPath rest) none)
    else .error (.RepositoryWriterUnrecognizedUrl s)

/-- Claim C10: `writer_from_str "null://"` succeeds with a sink writer whose
verify behavior is `Missing` (the bare URL has no host component), a
recognized host selects its behavior, and `SinkWriterVerifyBehaviorUnknown`
arises exactly for a present host outside the four recognized strings. -/
theorem writerFromStr_null_bare :
    writerFromStr "null://" = .ok (.sink .Missing) ∧
    writerFromStr "null://exists-integrity-verified" =
      .ok (.sink .ExistsIntegrityVerified) ∧
    writerFromStr "null://bogus" =
      .error (.SinkWriterVerifyBehaviorUnknown "bogus") ∧
    (∀ h, sinkWriterVerifyBehaviorFromStr h =
        .error (.SinkWriterVerifyBehaviorUnknown h) ↔
      (h ≠ "missing" ∧ h ≠ "exists-no-integrity-check" ∧
       h ≠ "exists-integrity-verified" ∧ h ≠ "exists-integrity-mismatch")) := by
  refine ⟨by rfl, by rfl, by rfl, ?_⟩
  intro h
  unfold sinkWriterVerifyBehaviorFromStr
  split_ifs with h1 h2 h3 h4 <;> simp_all

/-- Witness for claim C10: the unknown-host characterization applied at the
concrete host "bogus". -/
theorem writerFromStr_null_bare_witness :
    sinkWriterVerifyBehaviorFromStr "bogus" =
      .error (.SinkWriterVerifyBehaviorUnknown "bogus") :=
  (writerFromStr_null_bare.2.2.2 "bogus").mpr (by decide)

end DebianRepo
